import Mathlib

/-!
Verification of the agentic-recruitment email screening system.

This file gives a shallow embedding of the deterministic core of the
repository:
  * `src/utils/conversation_manager.py` (the per-thread conversation ledger),
  * the classification heuristics of `classify_email` in `src/main.py`,
  * the deterministic post-processing of the oracle output in
    `analyze_resume` (`src/main.py`),
  * the education-missing cascade and default-missing computation of
    `generate_response` (`src/main.py`),
  * the provided-information builder of `process_job_application`
    (`src/main.py`),
and proves or refutes the frozen behavioural claims about them.

Python dictionaries are embedded as association lists with insertion order
preserved, which matches CPython semantics for the dictionaries in this
program (keys are unique, `update` rewrites values in place and appends new
keys in input order).  Python values occurring in this program (strings,
booleans, lists, dicts) are embedded as the inductive type `PyVal`.
External effects (the Gmail API, the filesystem, the OpenAI API and the
`re` library) are inputs of the embedded functions: a file write that can
fail becomes a `writeOk : Bool` argument, an oracle response becomes an
explicit argument, and a `re.search` result becomes an `Option String`.
-/

/-! ## String helpers (Python `in`, `.lower()`, `.strip()`) -/

/-- `startsWithChars hay needle` is true when `needle` is a prefix of `hay`
(character lists). -/
def startsWithChars : List Char → List Char → Bool
  | _, [] => true
  | [], _ :: _ => false
  | a :: as, b :: bs => decide (b = a) && startsWithChars as bs

/-- `containsChars hay needle` is true when `needle` occurs contiguously in
`hay`; this is Python's `needle in hay` on strings. -/
def containsChars : List Char → List Char → Bool
  | [], needle => needle.isEmpty
  | a :: rest, needle => startsWithChars (a :: rest) needle || containsChars rest needle

/-- Python's substring test `needle in hay`. -/
def strContains (hay needle : String) : Bool :=
  containsChars hay.data needle.data

/-- Python's `str.lower()` (ASCII case folding suffices for the strings of
this program). -/
def pyLower (s : String) : String :=
  String.mk (s.data.map Char.toLower)

/-- The whitespace characters `str.strip()` removes. -/
def isPySpace (c : Char) : Bool :=
  decide (c = ' ') || decide (c = '\t') || decide (c = '\n') || decide (c = '\r') ||
    decide (c = '\x0b') || decide (c = '\x0c')

/-- Drop leading whitespace from a character list. -/
def dropLeadingSpace : List Char → List Char
  | [] => []
  | c :: rest => if isPySpace c then dropLeadingSpace rest else c :: rest

/-- Python's `str.strip()` on whitespace. -/
def pyStrip (s : String) : String :=
  String.mk ((dropLeadingSpace (dropLeadingSpace s.data).reverse).reverse)

/-! ## Python values and dictionaries -/

/-- The Python values this program stores in its field maps: strings,
booleans (`Resume/CV = True`), lists (education and experience entries,
skills) and dictionaries (structured entries such as
`{"description": ...}`). -/
inductive PyVal where
  | str : String → PyVal
  | bool : Bool → PyVal
  | list : List PyVal → PyVal
  | dict : List (String × PyVal) → PyVal
deriving Repr

/-- Python truthiness for the embedded values. -/
def pyTruthy : PyVal → Bool
  | .str s => decide (s ≠ "")
  | .bool b => b
  | .list l => !l.isEmpty
  | .dict d => !d.isEmpty

/-- A Python dictionary: an association list with unique keys, insertion
order preserved. -/
abbrev Dict (V : Type) := List (String × V)

/-- `k in d` for a Python dictionary. -/
def hasKey {V : Type} : Dict V → String → Bool
  | [], _ => false
  | p :: rest, k => decide (p.1 = k) || hasKey rest k

/-- `d.get(k)` for a Python dictionary (first binding; the dictionaries of
this program have unique keys). -/
def getVal {V : Type} : Dict V → String → Option V
  | [], _ => none
  | p :: rest, k => if p.1 = k then some p.2 else getVal rest k

/-- `d[k] = v`: rewrite the binding of `k` in place if present, else append
it (CPython insertion-order semantics). -/
def setKey {V : Type} : Dict V → String → V → Dict V
  | [], k, v => [(k, v)]
  | p :: rest, k, v => if p.1 = k then (k, v) :: rest else p :: setKey rest k v

/-- `d.update(u)`: rewrite or append every binding of `u` in order. -/
def dictUpdate {V : Type} (d u : Dict V) : Dict V :=
  u.foldl (fun acc p => setKey acc p.1 p.2) d

/-- `del d[k]` (the dictionaries of this program bind each key once). -/
def eraseKey {V : Type} (d : Dict V) (k : String) : Dict V :=
  d.filter (fun p => !decide (p.1 = k))

/-- The key sequence of a dictionary. -/
def dictKeys {V : Type} (d : Dict V) : List String :=
  d.map Prod.fst

/-- The field `k` is present in the map with a truthy (non-empty) value. -/
def truthyAt (m : Dict PyVal) (k : String) : Bool :=
  match getVal m k with
  | some w => pyTruthy w
  | none => false

/-! ## The Thread Ledger (`src/utils/conversation_manager.py`) -/

/-- A conversation turn as built by `ConversationManager.add_message`
(`conversation_manager.py:93-101`): role, content, a timestamp taken from
the wall clock (an input here), and the optional `provided_information`
entry that is attached only for applicant messages carrying information. -/
structure PyMessage where
  role : String
  content : String
  timestamp : String
  provided_information : Option (Dict PyVal)

/-- The JSON document `save_conversation` writes for one thread
(`conversation_manager.py:135-140`): the message list plus the cumulative
provided-information map as metadata. -/
structure SavedRecord where
  messages : List PyMessage
  provided_information : Dict PyVal

/-- The state of a `ConversationManager` plus the conversation-cache
directory it persists to: `active_threads` and `provided_information` are
the two in-memory dictionaries of the class, `disk` holds one
`SavedRecord` per thread file. -/
structure CMState where
  active_threads : Dict (List PyMessage)
  provided_information : Dict (Dict PyVal)
  disk : Dict SavedRecord

/-- `save_conversation(thread_id)` (`conversation_manager.py:119-151`):
writes the thread's messages and cumulative map to its file, but only when
the thread is in `active_threads`.  A failing write (`writeOk = false`)
raises inside the method's own try/except: the error is logged, the disk
is left unchanged and the caller continues normally. -/
def save_conversation (t : String) (writeOk : Bool) (st : CMState) : CMState :=
  if hasKey st.active_threads t then
    if writeOk then
      let record : SavedRecord :=
        ⟨(getVal st.active_threads t).getD [], (getVal st.provided_information t).getD []⟩
      { st with disk := setKey st.disk t record }
    else st
  else st

/-- `if thread_id not in d: d[thread_id] = []` — the lazy initialisation
both `add_message` and `update_provided_information` perform
(`conversation_manager.py:84-90` and `238-240`). -/
def dictSetDefault {A : Type} (d : Dict (List A)) (t : String) : Dict (List A) :=
  if hasKey d t then d else setKey d t []

/-- `self.provided_information[thread_id].update(info)` after the lazy
initialisation: the in-place merge both mutating methods perform
(`conversation_manager.py:103` and `243`). -/
def mergeProvided (prov : Dict (Dict PyVal)) (t : String) (info : Dict PyVal) :
    Dict (Dict PyVal) :=
  setKey (dictSetDefault prov t) t
    (dictUpdate ((getVal (dictSetDefault prov t) t).getD []) info)

/-- `add_message(thread_id, role, content, provided_info)`
(`conversation_manager.py:73-117`): initialise the thread's entries if
absent, build the message (attaching and merging `provided_info` only when
it is truthy and the role is `"applicant"`), append it, then save. -/
def add_message (t role content : String) (provided_info : Option (Dict PyVal))
    (now : String) (writeOk : Bool) (st : CMState) : CMState :=
  let attach := match provided_info with
    | some info => !info.isEmpty && decide (role = "applicant")
    | none => false
  let message : PyMessage :=
    { role := role, content := content, timestamp := now
      provided_information := if attach then provided_info else none }
  let provAll2 := if attach then
      mergeProvided st.provided_information t (provided_info.getD [])
    else dictSetDefault st.provided_information t
  let threads := dictSetDefault st.active_threads t
  let threads2 := setKey threads t ((getVal threads t).getD [] ++ [message])
  save_conversation t writeOk
    { active_threads := threads2, provided_information := provAll2, disk := st.disk }

/-- `update_provided_information(thread_id, provided_info)`
(`conversation_manager.py:229-253`): initialise the thread's cumulative map
if absent, merge with `dict.update`, then save. -/
def update_provided_information (t : String) (info : Dict PyVal) (writeOk : Bool)
    (st : CMState) : CMState :=
  save_conversation t writeOk
    { st with provided_information := mergeProvided st.provided_information t info }

/-- `complete_conversation(thread_id)` (`conversation_manager.py:153-171`):
save one last time, then delete the thread from `active_threads`.  The
`provided_information` entry is not deleted. -/
def complete_conversation (t : String) (writeOk : Bool) (st : CMState) : CMState :=
  if hasKey st.active_threads t then
    let st1 := save_conversation t writeOk st
    { st1 with active_threads := eraseKey st1.active_threads t }
  else st

/-- `get_conversation_history(thread_id)` (`conversation_manager.py:62-72`):
`self.active_threads.get(thread_id, [])`. -/
def get_conversation_history (t : String) (st : CMState) : List PyMessage :=
  (getVal st.active_threads t).getD []

/-- `get_provided_information(thread_id)` (`conversation_manager.py:255-265`):
`self.provided_information.get(thread_id, {})`. -/
def get_provided_information (t : String) (st : CMState) : Dict PyVal :=
  (getVal st.provided_information t).getD []

/-- The two ledger operations that merge into a thread's cumulative
field map, as quantified over by the spec's monotonicity property. -/
inductive LedgerOp where
  | addMsg (t role content : String) (info : Option (Dict PyVal)) (now : String)
      (writeOk : Bool)
  | updateInfo (t : String) (info : Dict PyVal) (writeOk : Bool)

/-- Apply one ledger operation. -/
def applyLedgerOp (st : CMState) : LedgerOp → CMState
  | .addMsg t role content info now writeOk => add_message t role content info now writeOk st
  | .updateInfo t info writeOk => update_provided_information t info writeOk st

/-- Apply a sequence of ledger operations in order. -/
def applyLedgerOps (st : CMState) (ops : List LedgerOp) : CMState :=
  ops.foldl applyLedgerOp st

/-! ## Field Schema (`src/config/job_requirements.py`) -/

/-- One field requirement: `{name, description}` as in
`get_job_requirements()`. -/
structure FieldReq where
  name : String
  description : String
deriving DecidableEq

/-- `required_information` from `get_job_requirements()`
(`job_requirements.py:9-38`). -/
def requiredInformation : List FieldReq :=
  [⟨"Full Name", "Applicant's complete name (first and last name)"⟩,
   ⟨"Email Address", "Valid email address for communication"⟩,
   ⟨"Phone Number", "Valid phone number"⟩,
   ⟨"Resume/CV", "Detailed resume or CV as an attachment"⟩,
   ⟨"Work Experience", "Any work experience"⟩,
   ⟨"Education", "Highest level of education and field of study"⟩]

/-- `optional_information` from `get_job_requirements()`
(`job_requirements.py:39-68`). -/
def optionalInformation : List FieldReq :=
  [⟨"Portfolio", "Link to online portfolio or work samples"⟩,
   ⟨"LinkedIn Profile", "Link to LinkedIn profile"⟩,
   ⟨"GitHub Profile", "Link to GitHub profile for technical positions"⟩,
   ⟨"Cover Letter", "Personalized cover letter explaining interest in the position"⟩,
   ⟨"Salary Expectations", "Expected salary range"⟩,
   ⟨"Availability", "Earliest start date and notice period"⟩,
   ⟨"References", "Professional references with contact information"⟩]

/-- The list of required field names the regex fallback of `analyze_resume`
accepts (`main.py:1000`). -/
def requiredSixNames : List String :=
  ["Full Name", "Phone Number", "Email Address", "Resume/CV", "Work Experience", "Education"]

/-! ## Email classification (`classify_email`, `src/main.py:518-599`) -/

/-- `HR_EMAIL` from `src/config/settings.py:13`. -/
def HR_EMAIL : String := "cindysim@arxmedia.co"

/-- An attachment record as produced by `extract_email_data`
(`email_processor.py:111-117`). -/
structure AttachmentInfo where
  filename : String
  content_type : String

/-- The fields of `email_data` that `classify_email` reads. -/
structure EmailData where
  sender_name : String
  sender_email : String
  subject : String
  body : String
  attachments : List AttachmentInfo

/-- `subject_keywords` (`main.py:539`). -/
def subjectKeywords : List String :=
  ["application", "apply", "job", "position", "resume", "cv", "candidate", "opportunity",
   "career"]

/-- `body_keywords` (`main.py:544-548`). -/
def bodyKeywords : List String :=
  ["apply", "application", "position", "job", "opportunity", "resume", "cv",
   "work experience", "education", "qualification", "skill", "background",
   "interview", "hiring", "employment", "career", "consideration"]

/-- The document MIME types that count as a resume attachment
(`main.py:558`). -/
def docContentTypes : List String :=
  ["application/pdf", "application/msword",
   "application/vnd.openxmlformats-officedocument.wordprocessingml.document"]

/-- The "strong" subject keywords (`main.py:581`). -/
def strongSubjectKeywords : List String :=
  ["application", "apply", "job", "position"]

/-- `classify_email(email_data)` (`main.py:518-599`), returning the
`is_job_application` flag.  HR mail is rejected up front; then the
keyword/attachment heuristics run. -/
def classify_email (e : EmailData) : Bool :=
  if decide (e.sender_email = HR_EMAIL) || strContains e.sender_email HR_EMAIL then
    false
  else
    let subject := pyLower e.subject
    let subject_matches := subjectKeywords.any (fun kw => strContains subject kw)
    let body := pyLower e.body
    let body_matches := bodyKeywords.any (fun kw => strContains body kw)
    let has_resume := e.attachments.any (fun a =>
      decide (a.content_type ∈ docContentTypes) ||
        (let fn := pyLower a.filename
         strContains fn "resume" || strContains fn "cv" || strContains fn "curriculum"))
    if subject_matches && (body_matches || has_resume) then true
    else if body_matches && has_resume then true
    else if subject_matches && strongSubjectKeywords.any (fun kw => strContains subject kw) then
      true
    else false

/-! ## Completeness verdict assembly (`analyze_resume`, `src/main.py:910-1024`)

`analyze_resume` asks the OpenAI chat API which required information is
missing and then deterministically assembles the verdict from the model's
answer (`main.py:960-1013`).  The model's reply is an input here: `parsed`
is the decoded `missing_information` array when the reply's JSON parses
(`json.loads` succeeding on the reply or on its ```json block), and
`oracleText` is the raw reply text used by the `JSONDecodeError` fallback.
`regexMatches`, consumed only by the fallback, is the concatenation of the
`re.findall` results of the four patterns of `main.py:989-994` over the
reply. -/

/-- A completeness verdict: the `missing_information` list and the
`application_complete` flag. -/
structure Verdict where
  missing : List FieldReq
  complete : Bool
deriving DecidableEq

/-- One iteration of the regex fallback of `analyze_resume`
(`main.py:996-1006`): keep a stripped match when it names one of the six
required fields and is not yet listed, with the synthesised description. -/
def fallbackStep (acc : List FieldReq) (m : String) : List FieldReq :=
  let name := pyStrip m
  if decide (name ∈ requiredSixNames) then
    if acc.any (fun item => decide (item.name = name)) then acc
    else acc ++ [⟨name, "Required " ++ pyLower name ++ " information"⟩]
  else acc

/-- The regex fallback of `analyze_resume` (`main.py:984-1006`) over the
concatenated `re.findall` results. -/
def fallbackMissing (regexMatches : List String) : List FieldReq :=
  regexMatches.foldl fallbackStep []

/-- The missing list the `JSONDecodeError` branch rebuilds
(`main.py:984-994`): the regex fallback runs only when the reply text
mentions "missing". -/
def fallbackList (oracleText : String) (regexMatches : List String) : List FieldReq :=
  if strContains (pyLower oracleText) "missing" then fallbackMissing regexMatches else []

/-- The deterministic verdict assembly of `analyze_resume`
(`main.py:960-1013`).  On a successful JSON parse, the missing list is
taken verbatim and `application_complete` is its emptiness
(`main.py:971-977`).  On a `JSONDecodeError`, the missing list is rebuilt
by the regex fallback (guarded by `"missing" in text.lower()`), and when
that list is empty the flag is instead decided by a keyword scan of the
reply text (`main.py:1008-1013`). -/
def analyzeMissingPost (parsed : Option (List FieldReq)) (oracleText : String)
    (regexMatches : List String) : Verdict :=
  match parsed with
  | some lst => ⟨lst, lst.isEmpty⟩
  | none =>
    let ms := fallbackList oracleText regexMatches
    if ms.isEmpty then
      ⟨ms, strContains (pyLower oracleText) "complete" &&
        !strContains (pyLower oracleText) "incomplete"⟩
    else ⟨ms, false⟩

/-- One call of the completeness evaluation of `analyze_resume`, with every
input it actually depends on made explicit.  The cumulative field map
`fieldMap` (from `get_provided_information`, `main.py:907`) and the
requirements `reqs` (`main.py:821-822`) are interpolated into the prompt
sent to the oracle (`main.py:910-948`) but are never read by the
deterministic verdict assembly, so the verdict is a function of the
oracle's reply alone. -/
def analyzeVerdict (fieldMap : Dict PyVal) (reqs : List FieldReq)
    (parsed : Option (List FieldReq)) (oracleText : String)
    (regexMatches : List String) : Verdict :=
  analyzeMissingPost parsed oracleText regexMatches

/-! ## Response generation (`generate_response`, `src/main.py:1027-1448`)

The deterministic parts embedded here are the education-missing cascade
(`main.py:1191-1258`) and the default missing-information computation
(`main.py:1112-1119`).  Inputs coming from the analysis result are
explicit: `eduInfo` is `analysis_result['extracted_information']['education']`
when both keys are present (its entries are dictionaries with a string
`"description"`, the shape `extract_structured_info_from_text` and
`process_job_application` produce), and `responseText` is
`analysis_result['response_text']` when that key is present. -/

/-- The negative phrases tested against an extracted education entry's
description (`main.py:1207-1211`). -/
def eduNegPhrases : List String :=
  ["not specified", "not provided", "lacks educational details", "does not contain",
   "not present"]

/-- An extracted education entry's lowered description is recognised as a
negative assertion (`main.py:1207-1211`). -/
def isNegEduDesc (desc : String) : Bool :=
  eduNegPhrases.any (fun p => strContains desc p)

/-- An extracted education entry's lowered description counts as
substantial education information (`main.py:1216`). -/
def isSubstantialEduDesc (desc : String) : Bool :=
  decide (desc.length > 10) && !strContains desc "not" && !strContains desc "missing" &&
    !strContains desc "lacks"

/-- The `"description"` string of an extracted education entry, when the
key is present (the entries built by this repository always bind
`"description"` to a string). -/
def entryDescr (edu : Dict PyVal) : Option String :=
  match getVal edu "description" with
  | some (PyVal.str s) => some s
  | _ => none

/-- The loop over extracted education entries (`main.py:1204-1219`): a
negative description sets `education_missing = True` and breaks; a
substantial one sets it `False` and continues; anything else leaves the
accumulator. -/
def eduEntriesLoop : List (Dict PyVal) → Bool → Bool
  | [], acc => acc
  | edu :: rest, acc =>
    match entryDescr edu with
    | none => eduEntriesLoop rest acc
    | some d =>
      let desc := pyLower d
      if isNegEduDesc desc then true
      else if isSubstantialEduDesc desc then eduEntriesLoop rest false
      else eduEntriesLoop rest acc

/-- The phrases that mark education as missing in the analysis response
text (`main.py:1226-1235`), given that `"education"` occurs in it. -/
def responseTextSaysEduMissing (rt : String) : Bool :=
  (strContains rt "not specified" && strContains rt "education") ||
  (strContains rt "does not contain" && strContains rt "education") ||
  strContains rt "no education" || strContains rt "missing education" ||
  strContains rt "education details are not provided" ||
  strContains rt "education section is not present" ||
  strContains rt "lacks educational details" ||
  strContains rt "education is missing" ||
  strContains rt "education: -" || strContains rt "education: not"

/-- The degree terms that mark education as provided in the analysis
response text (`main.py:1238`). -/
def responseTextSaysEduPresent (rt : String) : Bool :=
  strContains rt "bachelor" || strContains rt "master" || strContains rt "phd" ||
    strContains rt "degree in"

/-- The education keywords searched in the email body (`main.py:1246`). -/
def bodyEduKeywords : List String :=
  ["bachelor", "master", "phd", "degree", "university", "college"]

/-- The education-missing cascade of `generate_response`
(`main.py:1191-1248`).  `education_missing` starts `True`; if the
cumulative map `provided_info` has the key `"Education"` it is set `False`
outright; otherwise the extracted entries, then the response text, then
the email body are consulted. -/
def educationMissingCalc (provided_info : Dict PyVal)
    (eduInfo : Option (List (Dict PyVal))) (responseText : Option String)
    (body : String) : Bool :=
  if hasKey provided_info "Education" then false
  else
    let m1 : Bool := match eduInfo with
      | some entries => if !entries.isEmpty then eduEntriesLoop entries true else true
      | none => true
    let m2 : Bool := match responseText with
      | none => m1
      | some raw =>
        let rt := pyLower raw
        if strContains rt "education" then
          if responseTextSaysEduMissing rt then true
          else if responseTextSaysEduPresent rt then false
          else m1
        else m1
    if body ≠ "" then
      let bl := pyLower body
      if bodyEduKeywords.any (fun kw => strContains bl kw) then false else m2
    else m2

/-- Appending Education to the missing list when the cascade says it is
missing and it is not already listed (`main.py:1251-1258`). -/
def appendEducationIfMissing (missing : List FieldReq) (eduMissing : Bool) : List FieldReq :=
  if eduMissing && !missing.any (fun i => decide (i.name = "Education")) then
    missing ++ [⟨"Education", "Highest level of education and field of study"⟩]
  else missing

/-- The default missing-information computation of `generate_response`
(`main.py:1112-1119`): when the analysis produced no missing list, every
required field whose name is not a key of the cumulative map is listed.
Only `required_information` is consulted; `optional_information` never
is. -/
def defaultMissing (provided_info : Dict PyVal) : List FieldReq :=
  requiredInformation.filter (fun req => !hasKey provided_info req.name)

/-! ## Provided-information extraction (`process_job_application`,
`src/main.py:360-408`)

`process_job_application` builds the `provided_info` dictionary that is
merged into the ledger.  Its inputs are made explicit:
`personalInfo`/`eduVal`/`workVal`/`skillsVal` are the fields of
`analysis_result['extracted_information']` when present (`hasExtracted`
is the key test of `main.py:364`; `personal_information` is a dictionary
in every record this repository builds), `hasAttachments` is the
truthiness of `email_data['attachments']`, `imagesDirTruthy` the
`os.path.exists` test of `main.py:390`, and `phoneBodyMatch` /
`eduBodyMatch` the `re.search` group(1) results of the two body patterns
(`main.py:397-408`).  The result is `none` when the Python code would
raise (appending to a non-list `Education` value), which aborts the turn
in the enclosing try/except. -/

/-- `if key in src and src[key]: dst[field] = src[key]` — the guarded copy
used for every extracted value (`main.py:370-387`). -/
def setIfTruthy (m : Dict PyVal) (field : String) (v : Option PyVal) : Dict PyVal :=
  match v with
  | some w => if pyTruthy w then setKey m field w else m
  | none => m

/-- The `provided_info` builder of `process_job_application`
(`main.py:360-408`). -/
def buildProvidedInfo (hasExtracted : Bool) (personalInfo : Option (Dict PyVal))
    (eduVal workVal skillsVal : Option PyVal) (hasAttachments imagesDirTruthy : Bool)
    (phoneBodyMatch eduBodyMatch : Option String) : Option (Dict PyVal) :=
  let base : Dict PyVal := []
  let m3 : Dict PyVal :=
    if hasExtracted then
      let a : Dict PyVal := match personalInfo with
        | some pi =>
          setIfTruthy (setIfTruthy (setIfTruthy base "Full Name" (getVal pi "name"))
            "Email Address" (getVal pi "email")) "Phone Number" (getVal pi "phone")
        | none => base
      setIfTruthy (setIfTruthy (setIfTruthy a "Education" eduVal)
        "Work Experience" workVal) "Skills" skillsVal
    else base
  let m4 : Dict PyVal :=
    if hasAttachments || imagesDirTruthy then setKey m3 "Resume/CV" (PyVal.bool true) else m3
  let m5 : Dict PyVal := match phoneBodyMatch with
    | some g => setKey m4 "Phone Number" (PyVal.str (pyStrip g))
    | none => m4
  match eduBodyMatch with
  | none => some m5
  | some g =>
    let m6 : Dict PyVal :=
      if hasKey m5 "Education" then m5 else setKey m5 "Education" (PyVal.list [])
    match getVal m6 "Education" with
    | some (PyVal.list l) =>
      some (setKey m6 "Education"
        (PyVal.list (l ++ [PyVal.dict [("description", PyVal.str (pyStrip g))]])))
    | _ => none

/-! ## Turn finalisation (`process_job_application`, `src/main.py:420-511`) -/

/-- The observable outcome of finishing one job-application turn. -/
structure TurnOutcome where
  state : CMState
  replyDelivered : Bool
  markedRead : Bool

/-- The tail of `process_job_application` (`main.py:420-441`):
`generate_response` sends the reply inside itself and its `send_email_response`
boolean result is discarded (`main.py:1440`, `email_processor.py:175-210`
returns `False` on failure instead of raising); the system response is then
appended to the ledger, the message is marked as read unconditionally
(`main.py:436`), and on a complete application the thread is completed. -/
def process_job_application_finish (st : CMState) (t responseText now : String)
    (applicationComplete sendOk writeOk : Bool) : TurnOutcome :=
  let delivered := sendOk
  let st1 := add_message t "system" responseText none now writeOk st
  let read := true
  let st2 := if applicationComplete then complete_conversation t writeOk st1 else st1
  { state := st2, replyDelivered := delivered, markedRead := read }

/-! ## Dictionary lemmas -/

theorem getVal_setKey_self {V : Type} (d : Dict V) (k : String) (v : V) :
    getVal (setKey d k v) k = some v := by
  induction d with
  | nil => simp [setKey, getVal]
  | cons p rest ih =>
    by_cases h : p.1 = k
    · simp [setKey, h, getVal]
    · simp [setKey, h, getVal, ih]

theorem getVal_setKey_ne {V : Type} (d : Dict V) (j k : String) (v : V) (h : j ≠ k) :
    getVal (setKey d k v) j = getVal d j := by
  have hkj : k ≠ j := fun hh => h hh.symm
  induction d with
  | nil => simp [setKey, getVal, hkj]
  | cons p rest ih =>
    by_cases hp : p.1 = k
    · have hpj : p.1 ≠ j := by rw [hp]; exact hkj
      simp [setKey, hp, getVal, hkj, hpj]
    · by_cases hj : p.1 = j
      · simp [setKey, hp, getVal, hj, h]
      · simp [setKey, hp, getVal, hj, ih]

theorem hasKey_eq_isSome_getVal {V : Type} (d : Dict V) (k : String) :
    hasKey d k = (getVal d k).isSome := by
  induction d with
  | nil => simp [hasKey, getVal]
  | cons p rest ih =>
    by_cases h : p.1 = k
    · simp [hasKey, getVal, h]
    · simp [hasKey, getVal, h, ih]

theorem hasKey_setKey_self {V : Type} (d : Dict V) (k : String) (v : V) :
    hasKey (setKey d k v) k = true := by
  rw [hasKey_eq_isSome_getVal, getVal_setKey_self]
  rfl

theorem hasKey_setKey_mono {V : Type} (d : Dict V) (j k : String) (v : V)
    (h : hasKey d j = true) : hasKey (setKey d k v) j = true := by
  by_cases hjk : j = k
  · subst hjk
    exact hasKey_setKey_self d j v
  · rw [hasKey_eq_isSome_getVal, getVal_setKey_ne d j k v hjk, ← hasKey_eq_isSome_getVal]
    exact h

theorem hasKey_dictUpdate_mono {V : Type} (u d : Dict V) (j : String)
    (h : hasKey d j = true) : hasKey (dictUpdate d u) j = true := by
  induction u generalizing d with
  | nil => simpa [dictUpdate] using h
  | cons p rest ih =>
    have step : hasKey (setKey d p.1 p.2) j = true := hasKey_setKey_mono d j p.1 p.2 h
    simpa [dictUpdate] using ih (setKey d p.1 p.2) step

theorem nodupKeys_val_unique {V : Type} (d : Dict V) (k : String) (v w : V)
    (hnd : (dictKeys d).Nodup) (hv : (k, v) ∈ d) (hw : (k, w) ∈ d) : v = w := by
  induction d with
  | nil => simp at hv
  | cons p rest ih =>
    simp only [dictKeys, List.map_cons, List.nodup_cons] at hnd
    rcases List.mem_cons.mp hv with hv1 | hv1 <;> rcases List.mem_cons.mp hw with hw1 | hw1
    · rw [← hv1] at hw1
      exact (Prod.mk.injEq _ _ _ _ ▸ hw1).2.symm
    · exfalso
      apply hnd.1
      have : p.1 = k := by rw [← hv1]
      rw [this]
      exact List.mem_map.mpr ⟨(k, w), hw1, rfl⟩
    · exfalso
      apply hnd.1
      have : p.1 = k := by rw [← hw1]
      rw [this]
      exact List.mem_map.mpr ⟨(k, v), hv1, rfl⟩
    · exact ih hnd.2 hv1 hw1

theorem setKey_eq_of_mem {V : Type} (d : Dict V) (k : String) (v : V)
    (hnd : (dictKeys d).Nodup) (hm : (k, v) ∈ d) : setKey d k v = d := by
  induction d with
  | nil => simp at hm
  | cons p rest ih =>
    simp only [dictKeys, List.map_cons, List.nodup_cons] at hnd
    by_cases h : p.1 = k
    · have hp : p = (k, v) := by
        rcases List.mem_cons.mp hm with h1 | h1
        · exact h1.symm
        · exfalso
          apply hnd.1
          rw [h]
          exact List.mem_map.mpr ⟨(k, v), h1, rfl⟩
      simp [setKey, h, hp]
    · have hm1 : (k, v) ∈ rest := by
        rcases List.mem_cons.mp hm with h1 | h1
        · exact absurd (by rw [← h1]) h
        · exact h1
      simp [setKey, h, ih hnd.2 hm1]

theorem dictUpdate_eq_of_subset {V : Type} (u d : Dict V)
    (hnd : (dictKeys d).Nodup) (hsub : ∀ p ∈ u, p ∈ d) : dictUpdate d u = d := by
  induction u with
  | nil => simp [dictUpdate]
  | cons p rest ih =>
    have hstep : setKey d p.1 p.2 = d :=
      setKey_eq_of_mem d p.1 p.2 hnd (hsub p (List.mem_cons_self p rest))
    have : dictUpdate d rest = d := ih (fun q hq => hsub q (List.mem_cons_of_mem p hq))
    simpa [dictUpdate, hstep] using this

theorem getVal_eraseKey_self {V : Type} (d : Dict V) (k : String) :
    getVal (eraseKey d k) k = none := by
  induction d with
  | nil => simp [eraseKey, getVal]
  | cons p rest ih =>
    by_cases h : p.1 = k
    · simpa [eraseKey, h] using ih
    · simpa [eraseKey, h, getVal] using ih

theorem getVal_eq_none_of_hasKey_false {V : Type} (d : Dict V) (k : String)
    (h : hasKey d k = false) : getVal d k = none := by
  rw [hasKey_eq_isSome_getVal] at h
  cases hg : getVal d k with
  | none => rfl
  | some v => rw [hg] at h; simp at h

/-! ## Ledger state lemmas -/

theorem getD_getVal_dictSetDefault {A : Type} (d : Dict (List A)) (t : String) :
    (getVal (dictSetDefault d t) t).getD [] = (getVal d t).getD [] := by
  unfold dictSetDefault
  by_cases h : hasKey d t = true
  · rw [if_pos h]
  · rw [if_neg h, getVal_setKey_self,
      getVal_eq_none_of_hasKey_false d t (Bool.not_eq_true _ ▸ h)]
    rfl

theorem getVal_dictSetDefault_ne {A : Type} (d : Dict (List A)) (t j : String)
    (h : j ≠ t) : getVal (dictSetDefault d t) j = getVal d j := by
  unfold dictSetDefault
  by_cases hk : hasKey d t = true
  · rw [if_pos hk]
  · rw [if_neg hk, getVal_setKey_ne d j t [] h]

theorem save_conversation_provided (u : String) (wk : Bool) (s : CMState) :
    (save_conversation u wk s).provided_information = s.provided_information := by
  unfold save_conversation
  by_cases h : hasKey s.active_threads u = true
  · rw [if_pos h]
    by_cases h2 : wk = true
    · rw [if_pos h2]
    · rw [if_neg h2]
  · rw [if_neg h]

theorem save_conversation_active (u : String) (wk : Bool) (s : CMState) :
    (save_conversation u wk s).active_threads = s.active_threads := by
  unfold save_conversation
  by_cases h : hasKey s.active_threads u = true
  · rw [if_pos h]
    by_cases h2 : wk = true
    · rw [if_pos h2]
    · rw [if_neg h2]
  · rw [if_neg h]

theorem save_conversation_writeFail (u : String) (s : CMState) :
    save_conversation u false s = s := by
  unfold save_conversation
  by_cases h : hasKey s.active_threads u = true
  · rw [if_pos h]
    rfl
  · rw [if_neg h]

theorem hasKey_mergeProvided_mono (prov : Dict (Dict PyVal)) (tOp : String)
    (info : Dict PyVal) (t k : String)
    (h : hasKey ((getVal prov t).getD []) k = true) :
    hasKey ((getVal (mergeProvided prov tOp info) t).getD []) k = true := by
  unfold mergeProvided
  by_cases ht : t = tOp
  · subst ht
    rw [getVal_setKey_self, Option.getD_some, getD_getVal_dictSetDefault]
    exact hasKey_dictUpdate_mono info _ k h
  · rw [getVal_setKey_ne _ _ _ _ ht, getVal_dictSetDefault_ne _ _ _ ht]
    exact h

theorem hasKey_after_dictSetDefault (prov : Dict (Dict PyVal)) (tOp t k : String)
    (h : hasKey ((getVal prov t).getD []) k = true) :
    hasKey ((getVal (dictSetDefault prov tOp) t).getD []) k = true := by
  by_cases ht : t = tOp
  · subst ht
    rw [getD_getVal_dictSetDefault]
    exact h
  · rw [getVal_dictSetDefault_ne _ _ _ ht]
    exact h

theorem hasKey_provStep (prov : Dict (Dict PyVal)) (b : Bool) (tOp : String)
    (info : Dict PyVal) (t k : String)
    (h : hasKey ((getVal prov t).getD []) k = true) :
    hasKey
      ((getVal (if b then mergeProvided prov tOp info else dictSetDefault prov tOp) t).getD [])
      k = true := by
  cases b
  · exact hasKey_after_dictSetDefault prov tOp t k h
  · exact hasKey_mergeProvided_mono prov tOp info t k h

theorem providedKey_applyLedgerOp_mono (st : CMState) (op : LedgerOp) (t k : String)
    (h : hasKey (get_provided_information t st) k = true) :
    hasKey (get_provided_information t (applyLedgerOp st op)) k = true := by
  cases op with
  | updateInfo tOp info wk =>
    show hasKey (get_provided_information t (update_provided_information tOp info wk st)) k = true
    unfold get_provided_information update_provided_information
    rw [save_conversation_provided]
    exact hasKey_mergeProvided_mono st.provided_information tOp info t k h
  | addMsg tOp role content info now wk =>
    show hasKey (get_provided_information t (add_message tOp role content info now wk st)) k = true
    unfold get_provided_information add_message
    dsimp only
    rw [save_conversation_provided]
    exact hasKey_provStep st.provided_information _ tOp (info.getD []) t k h

/-! ## Verdict and extraction lemmas -/

theorem fallbackStep_names (acc : List FieldReq) (m : String)
    (hacc : ∀ f ∈ acc, f.name ∈ requiredSixNames) :
    ∀ f ∈ fallbackStep acc m, f.name ∈ requiredSixNames := by
  intro f hf
  unfold fallbackStep at hf
  dsimp only at hf
  split at hf
  · split at hf
    · exact hacc f hf
    · rcases List.mem_append.mp hf with h | h
      · exact hacc f h
      · rw [List.mem_singleton.mp h]
        next hcond _ => exact of_decide_eq_true hcond
  · exact hacc f hf

theorem fallbackMissing_names_aux (rm : List String) (acc : List FieldReq)
    (hacc : ∀ f ∈ acc, f.name ∈ requiredSixNames) :
    ∀ f ∈ rm.foldl fallbackStep acc, f.name ∈ requiredSixNames := by
  induction rm generalizing acc with
  | nil => simpa using hacc
  | cons m rest ih =>
    intro f hf
    exact ih (fallbackStep acc m) (fallbackStep_names acc m hacc) f (by simpa using hf)

theorem fallbackMissing_names (rm : List String) :
    ∀ f ∈ fallbackMissing rm, f.name ∈ requiredSixNames :=
  fallbackMissing_names_aux rm [] (by simp)

theorem fallbackList_names (text : String) (rm : List String) :
    ∀ f ∈ fallbackList text rm, f.name ∈ requiredSixNames := by
  intro f hf
  unfold fallbackList at hf
  split at hf
  · exact fallbackMissing_names rm f hf
  · simp at hf

theorem requiredInformation_names :
    ∀ req ∈ requiredInformation, req.name ∈ requiredSixNames := by
  decide

theorem getVal_setIfTruthy_ne (m : Dict PyVal) (f : String) (v : Option PyVal)
    (j : String) (h : j ≠ f) : getVal (setIfTruthy m f v) j = getVal m j := by
  unfold setIfTruthy
  cases v with
  | none => rfl
  | some w =>
    dsimp only
    by_cases ht : pyTruthy w = true
    · rw [if_pos ht, getVal_setKey_ne m j f w h]
    · rw [if_neg ht]

/-! ## Claim theorems -/

/-- C1 (counterexample): the claim "a cumulative field map whose Education
value is a negative assertion is counted as missing" is false on the code:
`generate_response` sets `education_missing = False` whenever the key
`Education` is present in `provided_info` (`main.py:1195-1197`), without
looking at the value.  Refuted at the concrete map
`Education = "not specified in resume"` of spec Scenario C. -/
theorem C1_counterexample :
    ¬ (∀ (provided : Dict PyVal) (eduInfo : Option (List (Dict PyVal)))
        (rt : Option String) (body : String) (d : String),
        getVal provided "Education" = some (PyVal.str d) →
        isNegEduDesc (pyLower d) = true →
        educationMissingCalc provided eduInfo rt body = true) := by
  intro h
  have h1 := h [("Education", PyVal.str "not specified in resume")] none none ""
      "not specified in resume" rfl (by decide)
  exact absurd h1 (by decide)

/-- C1 (amended): if the key `Education` is present in the cumulative field
map, the education-missing cascade of `generate_response` counts Education
as provided regardless of its value — negative assertions included.  The
negative-assertion detection of `main.py:1204-1241` runs only when the
cumulative map lacks the key. -/
theorem C1_amended (provided : Dict PyVal) (eduInfo : Option (List (Dict PyVal)))
    (rt : Option String) (body : String) (h : hasKey provided "Education" = true) :
    educationMissingCalc provided eduInfo rt body = false := by
  unfold educationMissingCalc
  rw [if_pos h]

/-- C1 witness: the amended statement evaluated on Scenario C's map. -/
theorem C1_amended_witness :
    hasKey [("Education", PyVal.str "not specified in resume")] "Education" = true ∧
    educationMissingCalc [("Education", PyVal.str "not specified in resume")] none none "" =
      false :=
  ⟨by decide, C1_amended _ none none "" (by decide)⟩

/-- C2 (counterexample): the claim "a field once present with a non-empty,
non-negative value is only ever overwritten with another non-empty value"
is false on the code: the merges of `add_message` and
`update_provided_information` are plain `dict.update` calls
(`conversation_manager.py:103` and `243`), which overwrite with whatever
value arrives.  Refuted by merging `Full Name = ""` over
`Full Name = "Alice"`. -/
theorem C2_counterexample :
    ¬ (∀ (st : CMState) (ops : List LedgerOp) (t k : String) (v : PyVal),
        getVal (get_provided_information t st) k = some v →
        pyTruthy v = true →
        (∀ s : String, v = PyVal.str s → isNegEduDesc (pyLower s) = false) →
        truthyAt (get_provided_information t (applyLedgerOps st ops)) k = true) := by
  intro h
  have hneg : ∀ s : String, PyVal.str "Alice" = PyVal.str s →
      isNegEduDesc (pyLower s) = false := by
    intro s hs
    cases hs
    decide
  have h1 := h ⟨[("t1", [])], [("t1", [("Full Name", PyVal.str "Alice")])], []⟩
      [LedgerOp.updateInfo "t1" [("Full Name", PyVal.str "")] true] "t1" "Full Name"
      (PyVal.str "Alice") rfl (by decide) hneg
  exact absurd h1 (by decide)

/-- C2 (amended): key presence in the cumulative map is monotone across any
sequence of `add_message` / `update_provided_information` calls — a field
is never removed — but its value is last-writer-wins and may become empty. -/
theorem C2_amended (ops : List LedgerOp) (st : CMState) (t k : String)
    (h : hasKey (get_provided_information t st) k = true) :
    hasKey (get_provided_information t (applyLedgerOps st ops)) k = true := by
  induction ops generalizing st with
  | nil => simpa [applyLedgerOps] using h
  | cons op rest ih =>
    have h1 := providedKey_applyLedgerOp_mono st op t k h
    simpa [applyLedgerOps] using ih (applyLedgerOp st op) h1

/-- C2 witness: presence of `Full Name` survives the empty-value overwrite
of the counterexample run. -/
theorem C2_amended_witness :
    hasKey
      (get_provided_information "t1"
        (⟨[("t1", [])], [("t1", [("Full Name", PyVal.str "Alice")])], []⟩ : CMState))
      "Full Name" = true ∧
    hasKey
      (get_provided_information "t1"
        (applyLedgerOps ⟨[("t1", [])], [("t1", [("Full Name", PyVal.str "Alice")])], []⟩
          [LedgerOp.updateInfo "t1" [("Full Name", PyVal.str "")] true]))
      "Full Name" = true :=
  ⟨by decide,
   C2_amended [LedgerOp.updateInfo "t1" [("Full Name", PyVal.str "")] true]
     ⟨[("t1", [])], [("t1", [("Full Name", PyVal.str "Alice")])], []⟩ "t1" "Full Name"
     (by decide)⟩

/-- C3 (confirmed): merging a map `M` into a thread whose cumulative
provided-information map already equals `M` leaves the cumulative map
unchanged — `dict.update` with bindings that all repeat the current state
is the identity (merge of X into its own state is that state). -/
theorem C3_merge_idempotent (st : CMState) (t : String) (M : Dict PyVal) (wk : Bool)
    (hnd : (dictKeys M).Nodup) (hcur : get_provided_information t st = M) :
    get_provided_information t (update_provided_information t M wk st) = M := by
  unfold update_provided_information get_provided_information
  rw [save_conversation_provided]
  dsimp only
  unfold mergeProvided
  rw [getVal_setKey_self, Option.getD_some, getD_getVal_dictSetDefault]
  have hcur2 : (getVal st.provided_information t).getD [] = M := hcur
  rw [hcur2]
  exact dictUpdate_eq_of_subset M M hnd (fun p hp => hp)

/-- C3 witness: the idempotent merge evaluated on a concrete two-field map. -/
theorem C3_merge_idempotent_witness :
    (dictKeys
      [("Full Name", PyVal.str "Alice"), ("Email Address", PyVal.str "alice@ex.co")]).Nodup ∧
    get_provided_information "t1"
      (update_provided_information "t1"
        [("Full Name", PyVal.str "Alice"), ("Email Address", PyVal.str "alice@ex.co")] true
        ⟨[("t1", [])],
         [("t1", [("Full Name", PyVal.str "Alice"), ("Email Address", PyVal.str "alice@ex.co")])],
         []⟩) =
      [("Full Name", PyVal.str "Alice"), ("Email Address", PyVal.str "alice@ex.co")] :=
  ⟨by decide,
   C3_merge_idempotent
     ⟨[("t1", [])],
      [("t1", [("Full Name", PyVal.str "Alice"), ("Email Address", PyVal.str "alice@ex.co")])],
      []⟩
     "t1" [("Full Name", PyVal.str "Alice"), ("Email Address", PyVal.str "alice@ex.co")] true
     (by decide) rfl⟩

/-- C4 (counterexample): the claim "`complete` is true iff the computed
missing set is empty" is false on the code: in the `JSONDecodeError`
fallback of `analyze_resume` (`main.py:1008-1013`), when the regex
extraction finds nothing the flag is decided by a keyword scan of the
reply text, so a reply such as "error" yields an empty missing list with
`application_complete = False`. -/
theorem C4_counterexample :
    ¬ (∀ (F : Dict PyVal) (R : List FieldReq) (parsed : Option (List FieldReq))
        (text : String) (rm : List String),
        (analyzeVerdict F R parsed text rm).complete =
          (analyzeVerdict F R parsed text rm).missing.isEmpty) := by
  intro h
  exact absurd (h [] requiredInformation none "error" []) (by decide)

/-- C4 (amended): the equivalence "complete iff missing empty" holds
whenever the oracle's missing-information JSON parses
(`main.py:971-977`); in the parse fallback a non-empty rebuilt missing
list still forces `complete = false`, and every entry of the rebuilt list
names one of the six required fields, while the default missing-list
computation of `generate_response` reads only the required keys of the
cumulative map, so optional fields never affect the verdict. -/
theorem C4_amended :
    (∀ (F : Dict PyVal) (R : List FieldReq) (lst : List FieldReq) (text : String)
        (rm : List String),
      (analyzeVerdict F R (some lst) text rm).complete =
        (analyzeVerdict F R (some lst) text rm).missing.isEmpty) ∧
    (∀ (F : Dict PyVal) (R : List FieldReq) (text : String) (rm : List String),
      (analyzeVerdict F R none text rm).missing ≠ [] →
      (analyzeVerdict F R none text rm).complete = false) ∧
    (∀ (F : Dict PyVal) (R : List FieldReq) (text : String) (rm : List String),
      ∀ f ∈ (analyzeVerdict F R none text rm).missing, f.name ∈ requiredSixNames) ∧
    (∀ p q : Dict PyVal, (∀ n ∈ requiredSixNames, hasKey p n = hasKey q n) →
      defaultMissing p = defaultMissing q) := by
  refine ⟨?_, ?_, ?_, ?_⟩
  · intro F R lst text rm
    rfl
  · intro F R text rm h
    unfold analyzeVerdict analyzeMissingPost at h ⊢
    dsimp only at h ⊢
    by_cases hms : (fallbackList text rm).isEmpty = true
    · rw [if_pos hms] at h
      exact absurd (List.isEmpty_iff.mp hms) h
    · rw [if_neg hms]
  · intro F R text rm f hf
    unfold analyzeVerdict analyzeMissingPost at hf
    dsimp only at hf
    split at hf <;> exact fallbackList_names text rm f hf
  · intro p q h
    unfold defaultMissing
    apply List.filter_congr
    intro req hreq
    rw [h req.name (requiredInformation_names req hreq)]

/-- C4 witness: the amended statement evaluated on a fallback reply that
names Education, and on maps differing only in an optional field. -/
theorem C4_amended_witness :
    ((analyzeVerdict [] requiredInformation none "missing: **Education:**"
        ["Education"]).missing ≠ [] ∧
      (analyzeVerdict [] requiredInformation none "missing: **Education:**"
        ["Education"]).complete = false) ∧
    defaultMissing [("Portfolio", PyVal.str "site")] = defaultMissing [] :=
  ⟨⟨fun hh => absurd (congrArg List.length hh) (by decide),
    C4_amended.2.1 [] requiredInformation "missing: **Education:**" ["Education"]
      (fun hh => absurd (congrArg List.length hh) (by decide))⟩,
   C4_amended.2.2.2 [("Portfolio", PyVal.str "site")] [] (by decide)⟩

/-- C5 (counterexample): the claim "two evaluations with identical field
map and requirements return identical verdicts" is false on the code: the
verdict of `analyze_resume` is assembled from the sampled reply of a chat
completion (`main.py:951-977`), so two calls with identical field map and
requirements but different oracle replies yield different verdicts. -/
theorem C5_counterexample :
    ¬ (∀ (F : Dict PyVal) (R : List FieldReq) (pa : Option (List FieldReq))
        (ta : String) (rma : List String) (pb : Option (List FieldReq))
        (tb : String) (rmb : List String),
        analyzeVerdict F R pa ta rma = analyzeVerdict F R pb tb rmb) := by
  intro h
  exact absurd
    (congrArg Verdict.complete
      (h [] requiredInformation (some []) "x" []
        (some [⟨"Phone Number", "Valid phone number"⟩]) "x" []))
    (by decide)

/-- C5 (amended): the verdict assembly is deterministic in the inputs it
actually reads — the oracle's parsed reply, reply text and regex matches —
and reads the field map and requirements not at all (they only shape the
prompt), so determinism in the spec's sense fails exactly when the
oracle's sampled reply differs between the two calls. -/
theorem C5_amended (F Fb : Dict PyVal) (R Rb : List FieldReq)
    (parsed : Option (List FieldReq)) (text : String) (rm : List String) :
    analyzeVerdict F R parsed text rm = analyzeVerdict Fb Rb parsed text rm :=
  rfl

/-- C6 (counterexample): the claim "if the ledger write fails, the turn's
state transition is aborted and the in-memory thread state is left
unchanged" is false on the code: `add_message` mutates the in-memory
dictionaries first and `save_conversation` swallows its own write
exception (`conversation_manager.py:106-109` and `148-151`), so a failed
write leaves the appended turn and merged map in memory. -/
theorem C6_counterexample :
    ¬ (∀ (st : CMState) (t role content : String) (info : Option (Dict PyVal))
        (now : String),
        get_conversation_history t (add_message t role content info now false st) =
          get_conversation_history t st ∧
        get_provided_information t (add_message t role content info now false st) =
          get_provided_information t st) := by
  intro h
  have h1 := (h ⟨[], [], []⟩ "t1" "applicant" "hello"
      (some [("Full Name", PyVal.str "Alice")]) "ts").1
  exact absurd (congrArg List.length h1) (by decide)

/-- C6 (amended): on a failed ledger write, `add_message` leaves the disk
unchanged but keeps the in-memory transition: the turn is appended to the
history and the disclosed fields are merged into the cumulative map, so
memory and disk desynchronise instead of the transition aborting. -/
theorem C6_amended (st : CMState) (t content now : String) (info : Dict PyVal)
    (hne : info ≠ []) :
    (add_message t "applicant" content (some info) now false st).disk = st.disk ∧
    get_conversation_history t (add_message t "applicant" content (some info) now false st) =
      get_conversation_history t st ++ [⟨"applicant", content, now, some info⟩] ∧
    get_provided_information t (add_message t "applicant" content (some info) now false st) =
      dictUpdate (get_provided_information t st) info := by
  have h1 : info.isEmpty = false := by
    cases info with
    | nil => exact absurd rfl hne
    | cons a l => rfl
  have hattB : (!List.isEmpty info && decide (("applicant" : String) = "applicant")) = true := by
    simp [h1]
  refine ⟨?_, ?_, ?_⟩
  · unfold add_message
    dsimp only
    rw [save_conversation_writeFail]
  · unfold add_message get_conversation_history
    dsimp only
    rw [save_conversation_writeFail]
    dsimp only
    rw [getVal_setKey_self, Option.getD_some, getD_getVal_dictSetDefault]
    simp [h1]
  · unfold add_message get_provided_information
    dsimp only
    rw [save_conversation_writeFail]
    dsimp only
    simp only [h1, Bool.not_false, Bool.true_and, Bool.and_true, decide_eq_true_eq]
    simp only [if_true]
    unfold mergeProvided
    rw [getVal_setKey_self, Option.getD_some, getD_getVal_dictSetDefault]
    rfl

/-- C6 witness: the amended statement evaluated on an empty manager. -/
theorem C6_amended_witness :
    ([("Phone Number", PyVal.str "123456789")] : Dict PyVal) ≠ [] ∧
    ((add_message "t1" "applicant" "hi" (some [("Phone Number", PyVal.str "123456789")]) "ts"
        false ⟨[], [], []⟩).disk = ([] : Dict SavedRecord) ∧
      get_conversation_history "t1"
        (add_message "t1" "applicant" "hi" (some [("Phone Number", PyVal.str "123456789")])
          "ts" false ⟨[], [], []⟩) =
        get_conversation_history "t1" (⟨[], [], []⟩ : CMState) ++
          [⟨"applicant", "hi", "ts", some [("Phone Number", PyVal.str "123456789")]⟩] ∧
      get_provided_information "t1"
        (add_message "t1" "applicant" "hi" (some [("Phone Number", PyVal.str "123456789")])
          "ts" false ⟨[], [], []⟩) =
        dictUpdate (get_provided_information "t1" (⟨[], [], []⟩ : CMState))
          [("Phone Number", PyVal.str "123456789")]) :=
  ⟨List.cons_ne_nil _ _,
   C6_amended ⟨[], [], []⟩ "t1" "hi" "ts" [("Phone Number", PyVal.str "123456789")]
     (List.cons_ne_nil _ _)⟩

/-- C7 (counterexample): the claim "if sending the reply fails, the message
is not marked as read" is false on the code: `send_email_response` returns
`False` on failure and `generate_response` discards that result
(`main.py:1440`), after which `process_job_application` calls
`mark_as_read` unconditionally (`main.py:436`). -/
theorem C7_counterexample :
    ¬ (∀ (st : CMState) (t rt now : String) (ac wk : Bool),
        (process_job_application_finish st t rt now ac false wk).markedRead = false) := by
  intro h
  exact absurd (h ⟨[], [], []⟩ "t1" "re" "ts" false true) (by decide)

/-- C7 (amended): a processed job-application message is marked as read
whether or not the reply send succeeded; the delivery result is only the
discarded boolean of `send_email_response`, so a failed send is not
reconsidered on the next poll. -/
theorem C7_amended (st : CMState) (t rt now : String) (ac sendOk wk : Bool) :
    (process_job_application_finish st t rt now ac sendOk wk).markedRead = true ∧
    (process_job_application_finish st t rt now ac sendOk wk).replyDelivered = sendOk :=
  ⟨rfl, rfl⟩

/-- C8 (counterexample): the claim "after completion, `get` still returns
the archived conversation record" is false on the code:
`complete_conversation` deletes the thread from `active_threads`
(`conversation_manager.py:166`) and `get_conversation_history` then
returns the empty default (`conversation_manager.py:72`). -/
theorem C8_counterexample :
    ¬ (∀ (st : CMState) (t : String) (wk : Bool),
        hasKey st.active_threads t = true →
        get_conversation_history t (complete_conversation t wk st) =
          get_conversation_history t st) := by
  intro h
  have h1 := h ⟨[("t1", [⟨"applicant", "hello", "ts", none⟩])],
      [("t1", [("Full Name", PyVal.str "Alice")])], []⟩ "t1" true (by decide)
  exact absurd (congrArg List.length h1) (by decide)

/-- C8 (amended): after `complete_conversation` with a successful write,
`get_conversation_history` returns the empty default — the archived record
(turns plus cumulative map) lives only in the on-disk file — while
`get_provided_information` still returns the cumulative map because the
eviction deletes only the `active_threads` entry. -/
theorem C8_amended (st : CMState) (t : String)
    (hact : hasKey st.active_threads t = true) :
    get_conversation_history t (complete_conversation t true st) = [] ∧
    getVal (complete_conversation t true st).disk t =
      some ⟨get_conversation_history t st, get_provided_information t st⟩ ∧
    get_provided_information t (complete_conversation t true st) =
      get_provided_information t st := by
  have hdisk : (save_conversation t true st).disk =
      setKey st.disk t
        ⟨(getVal st.active_threads t).getD [], (getVal st.provided_information t).getD []⟩ := by
    unfold save_conversation
    rw [if_pos hact]
    rfl
  unfold complete_conversation
  rw [if_pos hact]
  dsimp only
  refine ⟨?_, ?_, ?_⟩
  · unfold get_conversation_history
    dsimp only
    rw [save_conversation_active, getVal_eraseKey_self]
    rfl
  · rw [hdisk, getVal_setKey_self]
    rfl
  · unfold get_provided_information
    dsimp only
    rw [save_conversation_provided]

/-- C8 witness: the amended statement evaluated on a one-turn thread. -/
theorem C8_amended_witness :
    hasKey
      ((⟨[("t1", [⟨"applicant", "hello", "ts", none⟩])],
         [("t1", [("Full Name", PyVal.str "Alice")])], []⟩ : CMState)).active_threads
      "t1" = true ∧
    (get_conversation_history "t1"
        (complete_conversation "t1" true
          ⟨[("t1", [⟨"applicant", "hello", "ts", none⟩])],
           [("t1", [("Full Name", PyVal.str "Alice")])], []⟩) = [] ∧
      getVal
        (complete_conversation "t1" true
          ⟨[("t1", [⟨"applicant", "hello", "ts", none⟩])],
           [("t1", [("Full Name", PyVal.str "Alice")])], []⟩).disk "t1" =
        some
          ⟨get_conversation_history "t1"
            (⟨[("t1", [⟨"applicant", "hello", "ts", none⟩])],
              [("t1", [("Full Name", PyVal.str "Alice")])], []⟩ : CMState),
           get_provided_information "t1"
            (⟨[("t1", [⟨"applicant", "hello", "ts", none⟩])],
              [("t1", [("Full Name", PyVal.str "Alice")])], []⟩ : CMState)⟩ ∧
      get_provided_information "t1"
        (complete_conversation "t1" true
          ⟨[("t1", [⟨"applicant", "hello", "ts", none⟩])],
           [("t1", [("Full Name", PyVal.str "Alice")])], []⟩) =
        get_provided_information "t1"
          (⟨[("t1", [⟨"applicant", "hello", "ts", none⟩])],
            [("t1", [("Full Name", PyVal.str "Alice")])], []⟩ : CMState)) :=
  ⟨by decide,
   C8_amended
     ⟨[("t1", [⟨"applicant", "hello", "ts", none⟩])],
      [("t1", [("Full Name", PyVal.str "Alice")])], []⟩ "t1" (by decide)⟩

/-- C9 (counterexample): the claim "whitespace-only values and
negative-assertion education/experience entries never set the field
present" is false on the code: `process_job_application` copies
`extracted_information['education']` into `provided_info` whenever the
list is non-empty (`main.py:378-379`), with no negative-assertion check,
so an entry with description "not specified" sets Education present. -/
theorem C9_counterexample :
    ¬ ((∀ (pInf : Option (Dict PyVal)) (workV skillsV : Option PyVal) (hA iT : Bool)
          (pm em : Option String) (r : Dict PyVal) (d : String),
          buildProvidedInfo true pInf
              (some (PyVal.list [PyVal.dict [("description", PyVal.str d)]]))
              workV skillsV hA iT pm em = some r →
          isNegEduDesc (pyLower d) = true → hasKey r "Education" = false) ∧
        (∀ (pif : Dict PyVal) (s : String) (hA iT : Bool) (r : Dict PyVal),
          getVal pif "phone" = some (PyVal.str s) → pyStrip s = "" →
          buildProvidedInfo true (some pif) none none none hA iT none none = some r →
          hasKey r "Phone Number" = false)) := by
  intro h
  have h1 := h.1 none none none false false none none
      [("Education", PyVal.list [PyVal.dict [("description", PyVal.str "not specified")]])]
      "not specified" rfl (by decide)
  exact absurd h1 (by decide)

/-- C9 (amended): the extraction step of `process_job_application` applies
no negative-assertion or whitespace filtering: any non-empty extracted
education list is copied into the field map verbatim — negative-assertion
entries included — and any personal value that is a non-empty string, even
a whitespace-only one, sets its field; only Python-falsy values (empty
string, empty list) are skipped. -/
theorem C9_amended :
    (∀ (pInf : Option (Dict PyVal)) (l : List PyVal) (workV skillsV : Option PyVal)
        (hA iT : Bool) (pm : Option String),
      l ≠ [] →
      ∃ r, buildProvidedInfo true pInf (some (PyVal.list l)) workV skillsV hA iT pm none =
          some r ∧
        getVal r "Education" = some (PyVal.list l)) ∧
    (∀ (pif : Dict PyVal) (s : String) (hA iT : Bool),
      getVal pif "phone" = some (PyVal.str s) → s ≠ "" →
      ∃ r, buildProvidedInfo true (some pif) none none none hA iT none none = some r ∧
        getVal r "Phone Number" = some (PyVal.str s)) := by
  constructor
  · intro pInf l workV skillsV hA iT pm hl
    have hl2 : l.isEmpty = false := by
      cases l with
      | nil => exact absurd rfl hl
      | cons a as => rfl
    unfold buildProvidedInfo
    dsimp only
    refine ⟨_, rfl, ?_⟩
    have hedu : ∀ a : Dict PyVal,
        getVal (setIfTruthy (setIfTruthy (setIfTruthy a "Education" (some (PyVal.list l)))
          "Work Experience" workV) "Skills" skillsV) "Education" = some (PyVal.list l) := by
      intro a
      rw [getVal_setIfTruthy_ne _ _ _ _ (by decide),
        getVal_setIfTruthy_ne _ _ _ _ (by decide)]
      unfold setIfTruthy
      dsimp only
      rw [if_pos (by simp [pyTruthy, hl2]), getVal_setKey_self]
    cases pm with
    | none =>
      by_cases hri : (hA || iT) = true
      · rw [if_pos hri, getVal_setKey_ne _ _ _ _ (by decide)]
        cases pInf <;> exact hedu _
      · rw [if_neg hri]
        cases pInf <;> exact hedu _
    | some g =>
      rw [getVal_setKey_ne _ _ _ _ (by decide)]
      by_cases hri : (hA || iT) = true
      · rw [if_pos hri, getVal_setKey_ne _ _ _ _ (by decide)]
        cases pInf <;> exact hedu _
      · rw [if_neg hri]
        cases pInf <;> exact hedu _
  · intro pif s hA iT hphone hs
    have hT : pyTruthy (PyVal.str s) = true := by simp [pyTruthy, hs]
    unfold buildProvidedInfo
    dsimp only
    refine ⟨_, rfl, ?_⟩
    rw [hphone]
    by_cases hri : (hA || iT) = true
    · rw [if_pos hri, getVal_setKey_ne _ _ _ _ (by decide)]
      unfold setIfTruthy
      dsimp only
      simp only [hT, eq_self_iff_true, if_true]
      rw [getVal_setKey_self]
    · rw [if_neg hri]
      unfold setIfTruthy
      dsimp only
      simp only [hT, eq_self_iff_true, if_true]
      rw [getVal_setKey_self]

/-- C9 witness: the amended statement evaluated on a negative-assertion
education entry and a whitespace-only phone value. -/
theorem C9_amended_witness :
    (∃ r, buildProvidedInfo true none
        (some (PyVal.list [PyVal.dict [("description", PyVal.str "not specified")]]))
        none none false false none none = some r ∧
      getVal r "Education" =
        some (PyVal.list [PyVal.dict [("description", PyVal.str "not specified")]])) ∧
    (∃ r, buildProvidedInfo true (some [("phone", PyVal.str " ")]) none none none false false
        none none = some r ∧
      getVal r "Phone Number" = some (PyVal.str " ")) :=
  ⟨C9_amended.1 none [PyVal.dict [("description", PyVal.str "not specified")]] none none
     false false none (List.cons_ne_nil _ _),
   C9_amended.2 [("phone", PyVal.str " ")] " " false false rfl (by decide)⟩

/-- C10 (confirmed): whenever the configured HR address occurs in the
sender address, `classify_email` returns `is_job_application = False`
before any keyword or attachment heuristic runs (`main.py:533-535`),
regardless of subject, body or attachments. -/
theorem C10_hr_never_application (e : EmailData)
    (h : strContains e.sender_email HR_EMAIL = true) : classify_email e = false := by
  unfold classify_email
  rw [h]
  simp

/-- C10 witness: an HR-containing sender with an application-like subject,
body and resume attachment is still classified as not an application. -/
theorem C10_hr_never_application_witness :
    strContains "hr-desk+cindysim@arxmedia.co" HR_EMAIL = true ∧
    classify_email
      ⟨"HR Desk", "hr-desk+cindysim@arxmedia.co", "Job Application for Manager",
        "I would like to apply for this position", [⟨"resume.pdf", "application/pdf"⟩]⟩ =
      false :=
  ⟨by decide, C10_hr_never_application _ (by decide)⟩
